import Mathlib

/-!
Verification of the PEtab `Problem` class (petab/problem.py): parameter-table
accessors (`get_x_ids`, `get_x_nominal`, `get_lb`, `get_ub`, `_apply_mask`,
`x_free_indices`, `x_fixed_indices`), the scale/unscale utilities
(`scale_parameters`, `unscale_parameters`), the YAML factory (`from_yaml`)
and the deprecated helpers (`from_folder`, default file names).

Python lists become Lean lists; the parameter table (a pandas DataFrame
indexed by parameter id) becomes a `List ParameterRow` in table order;
floating-point values are modelled as real numbers; fallible lookups return
`Option`; raised exceptions become `Except` errors; `warnings.warn` becomes
an accumulated warning list.
-/

namespace Petab

/-- The `parameterScale` column values: `lin`, `log`, `log10`. -/
inductive ParameterScale where
  | lin
  | log
  | log10
  deriving DecidableEq, Repr

/-- One row of the PEtab parameter table: the DataFrame index (`parameterId`)
and the columns `nominalValue`, `lowerBound`, `upperBound`, `parameterScale`
and `estimate` used by `problem.py`. The `estimate` column holds a number
compared against `0` (`val != 0` / `val == 0`). -/
structure ParameterRow where
  id : String
  nominalValue : ℝ
  lowerBound : ℝ
  upperBound : ℝ
  scale : ParameterScale
  estimate : Int

/-- The parameter table: rows in table order (pandas row order). -/
abbrev ParameterTable := List ParameterRow

/-- Source `Problem.x_free_indices`:
`[j for j, val in enumerate(estimated) if val != 0]` where
`estimated = list(parameter_df[ESTIMATE])`. -/
def x_free_indices (parameter_df : ParameterTable) : List ℕ :=
  (((parameter_df.map ParameterRow.estimate).enum.filter
      (fun jv => jv.2 != 0)).map Prod.fst)

/-- Source `Problem.x_fixed_indices`:
`[j for j, val in enumerate(estimated) if val == 0]`. -/
def x_fixed_indices (parameter_df : ParameterTable) : List ℕ :=
  (((parameter_df.map ParameterRow.estimate).enum.filter
      (fun jv => jv.2 == 0)).map Prod.fst)

/-- Source `Problem._apply_mask`: empty list when neither flag is set, the
fixed-index selection `[v[ix] for ix in self.x_fixed_indices]` when only
`fixed`, the free-index selection when only `free`, the whole vector when
both. Python's `v[ix]` (always in range in every call site, where `v` has
one entry per table row) is modelled by `List.get?`. -/
def apply_mask (parameter_df : ParameterTable) (v : List α)
    (free fixed : Bool) : List α :=
  if !free && !fixed then []
  else if !free then (x_fixed_indices parameter_df).filterMap (v.get? ·)
  else if !fixed then (x_free_indices parameter_df).filterMap (v.get? ·)
  else v

/-- Source `Problem.get_x_ids`: `v = list(self.parameter_df.index.values)` (the
parameter ids in table order) followed by `_apply_mask`. -/
def get_x_ids (parameter_df : ParameterTable) (free fixed : Bool) :
    List String :=
  apply_mask parameter_df (parameter_df.map ParameterRow.id) free fixed

/-- Source `Problem.x_free_ids` property: `get_x_ids(fixed=False)`. -/
def x_free_ids (parameter_df : ParameterTable) : List String :=
  get_x_ids parameter_df true false

/-- Source `Problem.x_fixed_ids` property: `get_x_ids(free=False)`. -/
def x_fixed_ids (parameter_df : ParameterTable) : List String :=
  get_x_ids parameter_df false true

end Petab

namespace Petab

/- Helper lemmas: a recursive characterisation of the index lists defined
through `enumerate`. -/

/-- Recursive form of `[j for j, val in enumerate(l) if f val]`. -/
def idx_filter (f : Int → Bool) : List Int → List ℕ
  | [] => []
  | a :: l => (if f a then [0] else []) ++ (idx_filter f l).map Nat.succ

theorem enumFrom_filter_eq_idx_filter (f : Int → Bool) (l : List Int) :
    ∀ n : ℕ, (((List.enumFrom n l).filter (fun jv => f jv.2)).map Prod.fst)
      = (idx_filter f l).map (· + n) := by
  induction l with
  | nil => intro n; rfl
  | cons a l ih =>
    intro n
    show ((((n, a) :: List.enumFrom (n + 1) l).filter
      (fun jv => f jv.2)).map Prod.fst) = _
    rw [List.filter_cons]
    by_cases hfa : f a = true
    · simp only [hfa, if_pos, List.map_cons, idx_filter, ih (n + 1)]
      simp [List.map_map, Function.comp_def, Nat.succ_add_eq_add_succ,
        Nat.add_comm, Nat.add_left_comm]
    · simp only [hfa, Bool.false_eq_true, if_false, List.nil_append, idx_filter]
      rw [ih (n + 1), List.map_map]
      congr 1
      funext x
      simp only [Function.comp_def]
      omega

theorem enum_filter_eq_idx_filter (f : Int → Bool) (l : List Int) :
    ((l.enum.filter (fun jv => f jv.2)).map Prod.fst) = idx_filter f l := by
  have h := enumFrom_filter_eq_idx_filter f l 0
  simpa using h

theorem x_free_indices_eq (p : ParameterTable) :
    x_free_indices p = idx_filter (fun e => e != 0) (p.map ParameterRow.estimate) :=
  enum_filter_eq_idx_filter (fun e => e != 0) (p.map ParameterRow.estimate)

theorem x_fixed_indices_eq (p : ParameterTable) :
    x_fixed_indices p = idx_filter (fun e => e == 0) (p.map ParameterRow.estimate) :=
  enum_filter_eq_idx_filter (fun e => e == 0) (p.map ParameterRow.estimate)

theorem x_free_indices_nil : x_free_indices [] = [] := rfl

theorem x_fixed_indices_nil : x_fixed_indices [] = [] := rfl

theorem x_free_indices_cons (r : ParameterRow) (p : ParameterTable) :
    x_free_indices (r :: p)
      = (if r.estimate != 0 then [0] else []) ++ (x_free_indices p).map Nat.succ := by
  rw [x_free_indices_eq, x_free_indices_eq, List.map_cons]
  rfl

theorem x_fixed_indices_cons (r : ParameterRow) (p : ParameterTable) :
    x_fixed_indices (r :: p)
      = (if r.estimate == 0 then [0] else []) ++ (x_fixed_indices p).map Nat.succ := by
  rw [x_fixed_indices_eq, x_fixed_indices_eq, List.map_cons]
  rfl

theorem filterMap_get_cons_succ (v : List α) (a : α) (idxs : List ℕ) :
    (idxs.map Nat.succ).filterMap ((a :: v).get? ·)
      = idxs.filterMap (v.get? ·) := by
  rw [List.filterMap_map]
  rfl

/-- The free-only mask over a per-row column equals row filtering by the
estimate flag followed by the column projection. -/
theorem mask_free_eq (p : ParameterTable) (f : ParameterRow → α) :
    (x_free_indices p).filterMap ((p.map f).get? ·)
      = (p.filter (fun r => r.estimate != 0)).map f := by
  induction p with
  | nil => rfl
  | cons r p ih =>
    rw [x_free_indices_cons, List.filterMap_append, List.map_cons,
      filterMap_get_cons_succ, ih, List.filter_cons]
    by_cases h : (r.estimate != 0) = true
    · simp [h]
    · simp [h]

/-- The fixed-only mask over a per-row column equals row filtering by the
estimate flag followed by the column projection. -/
theorem mask_fixed_eq (p : ParameterTable) (f : ParameterRow → α) :
    (x_fixed_indices p).filterMap ((p.map f).get? ·)
      = (p.filter (fun r => r.estimate == 0)).map f := by
  induction p with
  | nil => rfl
  | cons r p ih =>
    rw [x_fixed_indices_cons, List.filterMap_append, List.map_cons,
      filterMap_get_cons_succ, ih, List.filter_cons]
    by_cases h : (r.estimate == 0) = true
    · simp [h]
    · simp [h]

theorem mem_idx_filter (f : Int → Bool) (l : List Int) (j : ℕ) :
    j ∈ idx_filter f l ↔ ∃ e, l.get? j = some e ∧ f e := by
  induction l generalizing j with
  | nil => simp [idx_filter]
  | cons a l ih =>
    cases j with
    | zero =>
      by_cases h : f a = true
      · simp [idx_filter, h]
      · simp [idx_filter, h, List.mem_map]
    | succ j =>
      by_cases h : f a = true
      · simp [idx_filter, h, List.mem_map, Nat.succ_injective.eq_iff, ih]
      · simp [idx_filter, h, List.mem_map, Nat.succ_injective.eq_iff, ih]

theorem mem_x_free_indices (p : ParameterTable) (j : ℕ) :
    j ∈ x_free_indices p ↔ ∃ r, p.get? j = some r ∧ r.estimate ≠ 0 := by
  rw [x_free_indices_eq, mem_idx_filter]
  constructor
  · rintro ⟨e, he, hf⟩
    rw [List.get?_map] at he
    rcases hj : p.get? j with - | r
    · rw [hj] at he; simp at he
    · rw [hj] at he
      have herw : e = r.estimate := by simpa using he.symm
      subst herw
      exact ⟨r, rfl, by simpa using hf⟩
  · rintro ⟨r, hr, hne⟩
    exact ⟨r.estimate, by rw [List.get?_map, hr]; rfl, by simpa using hne⟩

theorem mem_x_fixed_indices (p : ParameterTable) (j : ℕ) :
    j ∈ x_fixed_indices p ↔ ∃ r, p.get? j = some r ∧ r.estimate = 0 := by
  rw [x_fixed_indices_eq, mem_idx_filter]
  constructor
  · rintro ⟨e, he, hf⟩
    rw [List.get?_map] at he
    rcases hj : p.get? j with - | r
    · rw [hj] at he; simp at he
    · rw [hj] at he
      have herw : e = r.estimate := by simpa using he.symm
      subst herw
      exact ⟨r, rfl, by simpa using hf⟩
  · rintro ⟨r, hr, hne⟩
    exact ⟨r.estimate, by rw [List.get?_map, hr]; rfl, by simpa using hne⟩

/-- The free and fixed index lists together are a permutation of
`0, …, n-1`. -/
theorem free_fixed_perm (p : ParameterTable) :
    (x_free_indices p ++ x_fixed_indices p).Perm (List.range p.length) := by
  induction p with
  | nil => simp [x_free_indices_nil, x_fixed_indices_nil]
  | cons r p ih =>
    rw [x_free_indices_cons, x_fixed_indices_cons, List.length_cons,
      List.range_succ_eq_map]
    by_cases h : r.estimate = 0
    · have hne : (r.estimate != 0) = false := by simp [h]
      have heq : (r.estimate == 0) = true := by simp [h]
      rw [hne, heq]
      simp only [Bool.false_eq_true, eq_self_iff_true, if_true, if_false,
        List.append_eq, List.nil_append, List.singleton_append]
      refine List.Perm.trans List.perm_middle ?_
      rw [← List.map_append]
      exact (ih.map Nat.succ).cons 0
    · have hne : (r.estimate != 0) = true := by simp [h]
      have heq : (r.estimate == 0) = false := by simp [h]
      rw [hne, heq]
      simp only [Bool.false_eq_true, eq_self_iff_true, if_true, if_false,
        List.append_eq, List.nil_append, List.singleton_append,
        List.cons_append]
      rw [← List.map_append]
      exact (ih.map Nat.succ).cons 0

end Petab

namespace Petab

/-! Scale transformation layer. The functions `petab.parameters.scale`,
`petab.parameters.unscale` and `petab.parameters.map_scale` used by
`problem.py` live outside the given source file, so they are modelled from
the specification. -/

/-- Modelled from the spec: `petab.parameters.scale` — `scale(value,
scale_kind)`: `linear` is identity; `log` is natural logarithm; `log10` is
base-10 logarithm. -/
noncomputable def scale_value (v : ℝ) : ParameterScale → ℝ
  | .lin => v
  | .log => Real.log v
  | .log10 => Real.logb 10 v

/-- Modelled from the spec: `petab.parameters.unscale` — the inverse
operation: `linear` is identity; `log` is exponential; `log10` is the
base-10 power. -/
noncomputable def unscale_value (v : ℝ) : ParameterScale → ℝ
  | .lin => v
  | .log => Real.exp v
  | .log10 => (10 : ℝ) ^ v

/-- Modelled from the spec: `petab.parameters.map_scale` — the vectorized
form of `scale` over a sequence of values paired element-wise with a
sequence of scale kinds (in `problem.py` both sequences always come from
the same table and have equal length). -/
noncomputable def map_scale (vs : List ℝ) (scales : List ParameterScale) : List ℝ :=
  List.zipWith scale_value vs scales

/-- Source `Problem.get_x_nominal`: `v = list(parameter_df[NOMINAL_VALUE])`,
scaled element-wise by `map_scale(v, parameter_df[PARAMETER_SCALE])` when
`scaled`, then `_apply_mask`. -/
noncomputable def get_x_nominal (parameter_df : ParameterTable)
    (free fixed scaled : Bool) : List ℝ :=
  let v := parameter_df.map ParameterRow.nominalValue
  let v := if scaled then map_scale v (parameter_df.map ParameterRow.scale) else v
  apply_mask parameter_df v free fixed

/-- Source `Problem.get_lb`: as `get_x_nominal` with the `lowerBound` column. -/
noncomputable def get_lb (parameter_df : ParameterTable)
    (free fixed scaled : Bool) : List ℝ :=
  let v := parameter_df.map ParameterRow.lowerBound
  let v := if scaled then map_scale v (parameter_df.map ParameterRow.scale) else v
  apply_mask parameter_df v free fixed

/-- Source `Problem.get_ub`: as `get_x_nominal` with the `upperBound` column. -/
noncomputable def get_ub (parameter_df : ParameterTable)
    (free fixed scaled : Bool) : List ℝ :=
  let v := parameter_df.map ParameterRow.upperBound
  let v := if scaled then map_scale v (parameter_df.map ParameterRow.scale) else v
  apply_mask parameter_df v free fixed

/-- Source `self.parameter_df[PARAMETER_SCALE][parameter_id]`: the scale of the
(first) row whose id is `parameter_id`; in pandas a missing id raises
`KeyError`, modelled by `none`. -/
def lookup_scale (parameter_df : ParameterTable) (parameter_id : String) :
    Option ParameterScale :=
  (parameter_df.find? (fun r => r.id == parameter_id)).map ParameterRow.scale

/-- Source `Problem.scale_parameters`: the dict comprehension
`{pid: parameters.scale(val, parameter_df[PARAMETER_SCALE][pid]) for pid,
val in x_dict.items()}`, iterating the entries in order; the first missing
id raises (`none`). -/
noncomputable def scale_parameters (parameter_df : ParameterTable) :
    List (String × ℝ) → Option (List (String × ℝ))
  | [] => some []
  | kv :: rest => do
      let s ← lookup_scale parameter_df kv.1
      let tail ← scale_parameters parameter_df rest
      pure ((kv.1, scale_value kv.2 s) :: tail)

/-- Source `Problem.unscale_parameters`: the dict comprehension with
`parameters.unscale`. -/
noncomputable def unscale_parameters (parameter_df : ParameterTable) :
    List (String × ℝ) → Option (List (String × ℝ))
  | [] => some []
  | kv :: rest => do
      let s ← lookup_scale parameter_df kv.1
      let tail ← unscale_parameters parameter_df rest
      pure ((kv.1, unscale_value kv.2 s) :: tail)

/-- The concrete scenario table of the spec: ids `[k1, k2]`, bounds
`[(0,10),(0,5)]`, nominal `[2,1]`, scale `[linear, log10]`, estimate
`[1,0]`. -/
noncomputable def k1_row : ParameterRow :=
  { id := "k1", nominalValue := 2, lowerBound := 0, upperBound := 10,
    scale := .lin, estimate := 1 }

/-- Second row of the scenario table. -/
noncomputable def k2_row : ParameterRow :=
  { id := "k2", nominalValue := 1, lowerBound := 0, upperBound := 5,
    scale := .log10, estimate := 0 }

/-- The scenario parameter table. -/
noncomputable def scenario_table : ParameterTable := [k1_row, k2_row]

end Petab

namespace Petab

/-! Helper lemmas for the scale layer and the masked accessors. -/

theorem apply_mask_both (p : ParameterTable) (v : List α) :
    apply_mask p v true true = v := rfl

theorem apply_mask_none (p : ParameterTable) (v : List α) :
    apply_mask p v false false = [] := rfl

theorem apply_mask_free (p : ParameterTable) (v : List α) :
    apply_mask p v true false = (x_free_indices p).filterMap (v.get? ·) := rfl

theorem apply_mask_fixed (p : ParameterTable) (v : List α) :
    apply_mask p v false true = (x_fixed_indices p).filterMap (v.get? ·) := rfl

theorem map_scale_map (p : ParameterTable) (sel : ParameterRow → ℝ) :
    map_scale (p.map sel) (p.map ParameterRow.scale)
      = p.map (fun r => scale_value (sel r) r.scale) := by
  induction p with
  | nil => rfl
  | cons r p ih =>
    simp only [List.map_cons, map_scale, List.zipWith_cons_cons]
    rw [← ih]
    rfl

theorem unscale_scale_value (s : ParameterScale) (v : ℝ) (h : 0 < v) :
    unscale_value (scale_value v s) s = v := by
  cases s with
  | lin => rfl
  | log => exact Real.exp_log h
  | log10 =>
    exact Real.rpow_logb (by norm_num) (by norm_num) h

theorem lookup_scale_of_mem (p : ParameterTable) (pid : String)
    (h : pid ∈ p.map ParameterRow.id) :
    ∃ s, lookup_scale p pid = some s := by
  induction p with
  | nil => simp at h
  | cons r p ih =>
    by_cases hr : r.id = pid
    · exact ⟨r.scale, by simp [lookup_scale, List.find?_cons, hr]⟩
    · have h2 : pid ∈ p.map ParameterRow.id := by
        rw [List.map_cons, List.mem_cons] at h
        rcases h with heq | hmem
        · exact absurd heq.symm hr
        · exact hmem
      rcases ih h2 with ⟨s, hs⟩
      refine ⟨s, ?_⟩
      simpa [lookup_scale, List.find?_cons, hr] using hs

theorem scale_parameters_cons (p : ParameterTable) (kv : String × ℝ)
    (rest : List (String × ℝ)) :
    scale_parameters p (kv :: rest)
      = (lookup_scale p kv.1).bind (fun s =>
          (scale_parameters p rest).bind (fun tail =>
            some ((kv.1, scale_value kv.2 s) :: tail))) := rfl

theorem unscale_parameters_cons (p : ParameterTable) (kv : String × ℝ)
    (rest : List (String × ℝ)) :
    unscale_parameters p (kv :: rest)
      = (lookup_scale p kv.1).bind (fun s =>
          (unscale_parameters p rest).bind (fun tail =>
            some ((kv.1, unscale_value kv.2 s) :: tail))) := rfl

theorem scale_parameters_keys (p : ParameterTable) :
    ∀ d sd : List (String × ℝ), scale_parameters p d = some sd →
      sd.map Prod.fst = d.map Prod.fst := by
  intro d
  induction d with
  | nil => intro sd h; cases h; rfl
  | cons kv rest ih =>
    intro sd h
    rcases hl : lookup_scale p kv.1 with - | s
    · rw [scale_parameters, hl] at h; cases h
    · rcases hr : scale_parameters p rest with - | tail
      · rw [scale_parameters, hl, hr] at h; cases h
      · rw [scale_parameters, hl, hr] at h
        cases h
        simp [ih tail hr]

theorem unscale_parameters_keys (p : ParameterTable) :
    ∀ d ud : List (String × ℝ), unscale_parameters p d = some ud →
      ud.map Prod.fst = d.map Prod.fst := by
  intro d
  induction d with
  | nil => intro ud h; cases h; rfl
  | cons kv rest ih =>
    intro ud h
    rcases hl : lookup_scale p kv.1 with - | s
    · rw [unscale_parameters, hl] at h; cases h
    · rcases hr : unscale_parameters p rest with - | tail
      · rw [unscale_parameters, hl, hr] at h; cases h
      · rw [unscale_parameters, hl, hr] at h
        cases h
        simp [ih tail hr]

theorem scale_then_unscale (p : ParameterTable) :
    ∀ d : List (String × ℝ),
      (∀ kv ∈ d, kv.1 ∈ p.map ParameterRow.id ∧ 0 < kv.2) →
      (scale_parameters p d).bind (unscale_parameters p) = some d := by
  intro d
  induction d with
  | nil => intro _; rfl
  | cons kv rest ih =>
    intro h
    rcases lookup_scale_of_mem p kv.1 (h kv (List.mem_cons_self kv rest)).1
      with ⟨s, hs⟩
    have hrest := ih (fun kv hkv => h kv (List.mem_cons_of_mem _ hkv))
    rcases hsc : scale_parameters p rest with - | tail
    · rw [hsc] at hrest; cases hrest
    · rw [hsc] at hrest
      have hun : unscale_parameters p tail = some rest := by
        simpa using hrest
      have hpos := (h kv (List.mem_cons_self kv rest)).2
      rw [scale_parameters_cons, hs, hsc, Option.some_bind, Option.some_bind,
        Option.some_bind, unscale_parameters_cons]
      simp only [hs, hun, Option.some_bind]
      simp [unscale_scale_value s kv.2 hpos]

theorem length_filter_estimate (p : ParameterTable) :
    (p.filter (fun r => r.estimate != 0)).length
      + (p.filter (fun r => r.estimate == 0)).length = p.length := by
  induction p with
  | nil => rfl
  | cons r p ih =>
    by_cases h : (r.estimate == 0) = true
    · have h2 : (r.estimate != 0) = false := by simp [bne, h]
      simp [List.filter_cons, h, h2]
      omega
    · have h2 : (r.estimate != 0) = true := by simp [bne, h]
      simp [List.filter_cons, h, h2]
      omega

end Petab

namespace Petab

/-- C1: for every parameter table, `get_x_ids(free=True, fixed=True)`
returns all parameter ids in table order; `get_x_ids(free=False,
fixed=False)` returns the empty sequence; `get_x_ids(free=True,
fixed=False)` returns exactly the ids of rows with `estimate != 0`, and
`get_x_ids(free=False, fixed=True)` exactly the ids of rows with
`estimate == 0`, each in table order. -/
theorem get_x_ids_flag_semantics (p : ParameterTable) :
    get_x_ids p true true = p.map ParameterRow.id
  ∧ get_x_ids p false false = []
  ∧ get_x_ids p true false
      = (p.filter (fun r => r.estimate != 0)).map ParameterRow.id
  ∧ get_x_ids p false true
      = (p.filter (fun r => r.estimate == 0)).map ParameterRow.id := by
  refine ⟨rfl, rfl, ?_, ?_⟩
  · exact mask_free_eq p ParameterRow.id
  · exact mask_fixed_eq p ParameterRow.id

/-- C2: for every parameter table, `x_free_indices` and `x_fixed_indices`
are disjoint positional index lists whose union is (a permutation of, hence
sorted equal to) the full index range `0..n-1`, each row falling in exactly
the partition determined by its `estimate` flag. -/
theorem x_free_fixed_indices_partition (p : ParameterTable) :
    (∀ j, ¬(j ∈ x_free_indices p ∧ j ∈ x_fixed_indices p))
  ∧ (x_free_indices p ++ x_fixed_indices p).Perm (List.range p.length)
  ∧ (∀ j r, p.get? j = some r →
      ((j ∈ x_free_indices p ↔ r.estimate ≠ 0)
        ∧ (j ∈ x_fixed_indices p ↔ r.estimate = 0))) := by
  refine ⟨?_, free_fixed_perm p, ?_⟩
  · rintro j ⟨hfree, hfixed⟩
    rcases (mem_x_free_indices p j).mp hfree with ⟨r, hr, hne⟩
    rcases (mem_x_fixed_indices p j).mp hfixed with ⟨r2, hr2, heq⟩
    rw [hr] at hr2
    cases hr2
    exact hne heq
  · intro j r hr
    constructor
    · rw [mem_x_free_indices]
      constructor
      · rintro ⟨r2, hr2, hne⟩
        rw [hr] at hr2; cases hr2; exact hne
      · intro hne; exact ⟨r, hr, hne⟩
    · rw [mem_x_fixed_indices]
      constructor
      · rintro ⟨r2, hr2, heq⟩
        rw [hr] at hr2; cases hr2; exact heq
      · intro heq; exact ⟨r, hr, heq⟩

/-- C2 witness at the scenario table: index 0 is not in both partitions, and
its partition is decided by the first row's estimate flag. -/
theorem x_free_fixed_indices_partition_witness :
    ¬(0 ∈ x_free_indices scenario_table ∧ 0 ∈ x_fixed_indices scenario_table)
  ∧ (0 ∈ x_free_indices scenario_table ↔ k1_row.estimate ≠ 0) :=
  ⟨(x_free_fixed_indices_partition scenario_table).1 0,
   ((x_free_fixed_indices_partition scenario_table).2.2 0 k1_row rfl).1⟩

/-- C3: `get_x_nominal`, `get_lb` and `get_ub` with `scaled=True` transform
each row's value by that row's own scale and then apply the free/fixed
mask; the masked results select by row position (filtering rows by their
estimate flag), not by value. -/
theorem scaled_accessors_rowwise (p : ParameterTable) (free fixed : Bool) :
    get_x_nominal p free fixed true
      = apply_mask p (p.map (fun r => scale_value r.nominalValue r.scale))
          free fixed
  ∧ get_lb p free fixed true
      = apply_mask p (p.map (fun r => scale_value r.lowerBound r.scale))
          free fixed
  ∧ get_ub p free fixed true
      = apply_mask p (p.map (fun r => scale_value r.upperBound r.scale))
          free fixed
  ∧ get_x_nominal p true false true
      = (p.filter (fun r => r.estimate != 0)).map
          (fun r => scale_value r.nominalValue r.scale)
  ∧ get_x_nominal p false true true
      = (p.filter (fun r => r.estimate == 0)).map
          (fun r => scale_value r.nominalValue r.scale) := by
  refine ⟨?_, ?_, ?_, ?_, ?_⟩
  · show apply_mask p (map_scale (p.map ParameterRow.nominalValue)
      (p.map ParameterRow.scale)) free fixed = _
    rw [map_scale_map]
  · show apply_mask p (map_scale (p.map ParameterRow.lowerBound)
      (p.map ParameterRow.scale)) free fixed = _
    rw [map_scale_map]
  · show apply_mask p (map_scale (p.map ParameterRow.upperBound)
      (p.map ParameterRow.scale)) free fixed = _
    rw [map_scale_map]
  · show apply_mask p (map_scale (p.map ParameterRow.nominalValue)
      (p.map ParameterRow.scale)) true false = _
    rw [map_scale_map, apply_mask_free, mask_free_eq]
  · show apply_mask p (map_scale (p.map ParameterRow.nominalValue)
      (p.map ParameterRow.scale)) false true = _
    rw [map_scale_map, apply_mask_fixed, mask_fixed_eq]

/-- C4: on the scenario table (ids `[k1, k2]`, bounds `[(0,10),(0,5)]`,
nominal `[2,1]`, scale `[linear, log10]`, estimate `[1,0]`):
`x_free_ids == ["k1"]`, `x_fixed_ids == ["k2"]`, and
`get_ub(scaled=True) == [10, log10(5)]`. -/
theorem scenario_ids_and_scaled_ub :
    x_free_ids scenario_table = ["k1"]
  ∧ x_fixed_ids scenario_table = ["k2"]
  ∧ get_ub scenario_table true true true = [10, Real.logb 10 5] :=
  ⟨rfl, rfl, rfl⟩

/-- C5: for every parameter dictionary whose keys appear in the parameter
table and whose values are positive, unscaling the scaled dictionary
returns the original dictionary (each entry transformed under its own
parameter's scale); for the linear scale, scaling is the identity on any
value. -/
theorem scale_unscale_roundtrip (p : ParameterTable)
    (x_dict : List (String × ℝ))
    (h : ∀ kv ∈ x_dict, kv.1 ∈ p.map ParameterRow.id ∧ 0 < kv.2) :
    (∀ v : ℝ, scale_value v .lin = v)
  ∧ (scale_parameters p x_dict).bind (unscale_parameters p) = some x_dict :=
  ⟨fun _ => rfl, scale_then_unscale p x_dict h⟩

/-- C5 witness: the round trip on the scenario table for `{"k1": 2}`. -/
theorem scale_unscale_roundtrip_witness :
    (scale_parameters scenario_table [("k1", (2 : ℝ))]).bind
      (unscale_parameters scenario_table) = some [("k1", (2 : ℝ))] :=
  (scale_unscale_roundtrip scenario_table [("k1", (2 : ℝ))]
    (by
      intro kv hkv
      rw [List.mem_singleton] at hkv
      subst hkv
      refine ⟨?_, by norm_num⟩
      show "k1" ∈ scenario_table.map ParameterRow.id
      simp [scenario_table, k1_row, k2_row])).2

/-- C6 counterexample: with both flags at their Python defaults
(`free=True`, `fixed=True`), each of `get_x_ids(free=True)`,
`get_x_ids(fixed=True)` and `get_x_ids()` is the full id list, so on the
two-row scenario table the claimed count identity 2 + 2 = 2 fails. -/
theorem free_fixed_id_count_counterexample :
    ¬((get_x_ids scenario_table true true).length
        + (get_x_ids scenario_table true true).length
      = (get_x_ids scenario_table true true).length) := by
  have hlen : (get_x_ids scenario_table true true).length = 2 := rfl
  rw [hlen]
  omega

/-- C6 amended: with the other flag set to `False` in the filtered calls,
`len(get_x_ids(free=True, fixed=False)) + len(get_x_ids(free=False,
fixed=True)) == len(get_x_ids())`, and `get_x_ids(free=False, fixed=False)
== []`. -/
theorem free_fixed_id_count_amended (p : ParameterTable) :
    (get_x_ids p true false).length + (get_x_ids p false true).length
      = (get_x_ids p true true).length
  ∧ get_x_ids p false false = [] := by
  refine ⟨?_, rfl⟩
  have h1 := mask_free_eq p ParameterRow.id
  have h2 := mask_fixed_eq p ParameterRow.id
  show ((x_free_indices p).filterMap ((p.map ParameterRow.id).get? ·)).length
      + ((x_fixed_indices p).filterMap ((p.map ParameterRow.id).get? ·)).length
    = (p.map ParameterRow.id).length
  rw [h1, h2, List.length_map, List.length_map, List.length_map,
    length_filter_estimate]

/-- C7: `scale_parameters` and `unscale_parameters` return a new dictionary
with exactly the input's key set (in order); being pure functions of the
table and the input dictionary, they leave the problem's tables untouched. -/
theorem scale_unscale_preserve_keys (p : ParameterTable)
    (x_dict sd ud : List (String × ℝ)) :
    (scale_parameters p x_dict = some sd →
      sd.map Prod.fst = x_dict.map Prod.fst)
  ∧ (unscale_parameters p x_dict = some ud →
      ud.map Prod.fst = x_dict.map Prod.fst) :=
  ⟨scale_parameters_keys p x_dict sd, unscale_parameters_keys p x_dict ud⟩

/-- C7 witness: scaling `{"k2": 5}` over the scenario table yields the value
`log10(5)` under key `"k2"`, preserving the key set. -/
theorem scale_unscale_preserve_keys_witness :
    List.map Prod.fst [("k2", Real.logb 10 5)]
      = List.map Prod.fst [("k2", (5 : ℝ))] :=
  (scale_unscale_preserve_keys scenario_table [("k2", (5 : ℝ))]
    [("k2", Real.logb 10 5)] [("k2", (5 : ℝ))]).1 rfl

end Petab

namespace Petab

/-! YAML factory `Problem.from_yaml` and the deprecated entry points. File
parsing and path resolution are external I/O; `from_yaml` is modelled on an
already-loaded configuration dictionary, and a successful result is the set
of file names handed to `Problem.from_files` (an error result consults no
referenced file). -/

/-- One entry of the configuration's `problems` list. -/
structure YamlProblem where
  sbml_files : List String
  measurement_files : List String
  condition_files : List String
  observable_files : List String
  visualization_files : List String
  deriving DecidableEq, Repr

/-- A loaded PEtab YAML configuration: `format_version`, the top-level
`parameter_file` entry (modelled in its list form) and the `problems`
list. -/
structure YamlConfig where
  format_version : Nat
  parameter_file : List String
  problems : List YamlProblem
  deriving DecidableEq, Repr

/-- Errors raised by `Problem.from_yaml`: the composite-configuration
`ValueError`, the version-mismatch `ValueError`, the multiple-files
rejection of `assert_single_condition_and_sbml_file`, and the index error
on an empty `problems` list. -/
inductive FromYamlError where
  | compositeProblem
  | unsupportedVersion (found expected : Nat)
  | multipleFiles
  | missingProblem
  deriving DecidableEq, Repr

/-- The supported `format_version.__format_version__` (version 1 of the
PEtab format). -/
def supported_format_version : Nat := 1

/-- Modelled from the spec: `petab.yaml.is_composite_problem` — whether the
configuration comprises more than a single model/problem. -/
def is_composite_problem (cfg : YamlConfig) : Bool :=
  cfg.problems.length > 1

/-- Modelled from the spec: `petab.yaml.assert_single_condition_and_sbml_file`
— multi-file composition of the first problem's condition and SBML entries
is rejected. -/
def assert_single_condition_and_sbml_file (problem0 : YamlProblem) :
    Except FromYamlError Unit :=
  if problem0.sbml_files.length > 1 ∨ problem0.condition_files.length > 1 then
    .error .multipleFiles
  else
    .ok ()

/-- The arguments `from_yaml` passes to `Problem.from_files`: the referenced
files that would then be read. -/
structure FromFilesArgs where
  sbml_file : Option String
  measurement_file : List String
  condition_file : Option String
  parameter_file : List String
  visualization_files : List String
  observable_files : List String
  deriving DecidableEq, Repr

/-- Source `Problem.from_yaml` on a loaded configuration: reject a composite
configuration, then reject an unsupported format version, then consult only
the first entry of `problems` (`yaml_config['problems'][0]`; an empty list
raises) and hand the referenced file names on. -/
def from_yaml (cfg : YamlConfig) : Except FromYamlError FromFilesArgs :=
  if is_composite_problem cfg then
    .error .compositeProblem
  else if cfg.format_version ≠ supported_format_version then
    .error (.unsupportedVersion cfg.format_version supported_format_version)
  else
    match cfg.problems.head? with
    | none => .error .missingProblem
    | some problem0 => do
      let _ ← assert_single_condition_and_sbml_file problem0
      pure {
        sbml_file := problem0.sbml_files.head?
        measurement_file := problem0.measurement_files
        condition_file := problem0.condition_files.head?
        parameter_file := cfg.parameter_file
        visualization_files := problem0.visualization_files
        observable_files := problem0.observable_files }

/-- A warning emitted through `warnings.warn`; `DeprecationWarning` is the
only category used in `problem.py`. -/
inductive PetabWarning where
  | deprecation (message : String)
  deriving DecidableEq, Repr

/-- A computation's result together with the warnings collected while
producing it; warnings are collected, never raised, so the value is always
present. -/
structure WithWarnings (α : Type) where
  value : α
  warnings : List PetabWarning

/-- Model of `os.path.join(folder, name)` for the shapes used here: an
empty `folder` gives `name`; otherwise the parts are joined with `/`
(without doubling an existing trailing separator). -/
def os_path_join (folder name : String) : String :=
  if folder = "" then name
  else if folder.endsWith "/" then folder ++ name
  else folder ++ "/" ++ name

/-- Source `get_default_condition_file_name`: warns (deprecation) and
returns `os.path.join(folder, f"experimentalCondition_{model_name}.tsv")`. -/
def get_default_condition_file_name (model_name folder : String) :
    WithWarnings String :=
  { value := os_path_join folder
      ("experimentalCondition_" ++ model_name ++ ".tsv")
    warnings := [.deprecation
      "This function will be removed in future releases. "] }

/-- Source `get_default_measurement_file_name`: warns (deprecation) and
returns `os.path.join(folder, f"measurementData_{model_name}.tsv")`. -/
def get_default_measurement_file_name (model_name folder : String) :
    WithWarnings String :=
  { value := os_path_join folder ("measurementData_" ++ model_name ++ ".tsv")
    warnings := [.deprecation
      "This function will be removed in future releases. "] }

/-- Source `get_default_parameter_file_name`: warns (deprecation) and
returns `os.path.join(folder, f"parameters_{model_name}.tsv")`. -/
def get_default_parameter_file_name (model_name folder : String) :
    WithWarnings String :=
  { value := os_path_join folder ("parameters_" ++ model_name ++ ".tsv")
    warnings := [.deprecation
      "This function will be removed in future releases. "] }

/-- Source `get_default_sbml_file_name`: warns (deprecation) and returns
`os.path.join(folder, f"model_{model_name}.xml")`. -/
def get_default_sbml_file_name (model_name folder : String) :
    WithWarnings String :=
  { value := os_path_join folder ("model_" ++ model_name ++ ".xml")
    warnings := [.deprecation
      "This function will be removed in future releases. "] }

/-- Model of `os.path.split(folder)[-1]`: the last `/`-separated
component. -/
def path_basename (folder : String) : String :=
  ((folder.splitOn "/").getLast?).getD ""

/-- The four default file names `from_folder` passes to `from_files`. -/
structure FromFolderFiles where
  condition_file : String
  measurement_file : String
  parameter_file : String
  sbml_file : String
  deriving DecidableEq, Repr

/-- Source `Problem.from_folder`: warns (deprecation), defaults
`model_name` to the last path component of `folder`, and builds the four
default file names (each helper itself warning); reading the files in
`from_files`, and the `os.path.abspath` normalisation, are external I/O. -/
def from_folder (folder : String) (model_name : Option String) :
    WithWarnings FromFolderFiles :=
  let name := model_name.getD (path_basename folder)
  let c := get_default_condition_file_name name folder
  let m := get_default_measurement_file_name name folder
  let p := get_default_parameter_file_name name folder
  let sb := get_default_sbml_file_name name folder
  { value := { condition_file := c.value, measurement_file := m.value,
               parameter_file := p.value, sbml_file := sb.value }
    warnings := .deprecation
        "This function will be removed in future releases. Consider using a PEtab YAML file for grouping files"
      :: (c.warnings ++ m.warnings ++ p.warnings ++ sb.warnings) }

/-- Source `Problem.get_observables`: warns (deprecation) and returns the
result of the external `sbml.get_observables` call unchanged. -/
def get_observables (sbml_result : α) : WithWarnings α :=
  { value := sbml_result
    warnings := [.deprecation
      "This function will be removed in future releases."] }

/-- Source `Problem.get_sigmas`: warns (deprecation) and returns the result
of the external `sbml.get_sigmas` call unchanged. -/
def get_sigmas (sbml_result : α) : WithWarnings α :=
  { value := sbml_result
    warnings := [.deprecation
      "This function will be removed in future releases."] }

/-- A sample single-model problem entry. -/
def sample_problem : YamlProblem :=
  { sbml_files := ["model.xml"], measurement_files := ["meas.tsv"],
    condition_files := ["cond.tsv"], observable_files := ["obs.tsv"],
    visualization_files := [] }

/-- A sample configuration with an unsupported format version. -/
def sample_config_v2 : YamlConfig :=
  { format_version := 2, parameter_file := ["params.tsv"],
    problems := [sample_problem] }

/-- A sample composite configuration (two problem entries). -/
def sample_config_composite : YamlConfig :=
  { format_version := 1, parameter_file := ["params.tsv"],
    problems := [sample_problem, sample_problem] }

end Petab

namespace Petab

/-- C8: a configuration whose format version differs from the supported one
fails with an error (for a non-composite configuration, specifically the
version-mismatch error) before any referenced table or model file is
consulted — an error result carries no `FromFilesArgs`; with the supported
version, the version-mismatch error is never raised. -/
theorem from_yaml_version_check (cfg : YamlConfig) :
    (cfg.format_version ≠ supported_format_version →
      ∃ e, from_yaml cfg = .error e)
  ∧ (¬is_composite_problem cfg →
      cfg.format_version ≠ supported_format_version →
      from_yaml cfg
        = .error (.unsupportedVersion cfg.format_version
            supported_format_version))
  ∧ (cfg.format_version = supported_format_version →
      ∀ a b, from_yaml cfg ≠ .error (.unsupportedVersion a b)) := by
  by_cases hc : is_composite_problem cfg
  · refine ⟨fun _ => ⟨.compositeProblem, ?_⟩, fun hnc => absurd hc hnc,
      fun _ a b => ?_⟩
    · simp [from_yaml, hc]
    · simp [from_yaml, hc]
  · have hcf : is_composite_problem cfg = false := by
      rwa [Bool.not_eq_true] at hc
    by_cases hv : cfg.format_version = supported_format_version
    · refine ⟨fun hne => absurd hv hne, fun _ hne => absurd hv hne,
        fun _ a b => ?_⟩
      simp only [from_yaml, hcf, Bool.false_eq_true, if_false, hv,
        ne_eq, not_true_eq_false, ite_false]
      rcases hp : cfg.problems.head? with - | problem0
      · simp
      · rcases ha : assert_single_condition_and_sbml_file problem0 with e | u
        · have he : e = .multipleFiles := by
            unfold assert_single_condition_and_sbml_file at ha
            by_cases hcond : (problem0.sbml_files.length > 1
              ∨ problem0.condition_files.length > 1)
            · rw [if_pos hcond] at ha
              cases ha
              rfl
            · rw [if_neg hcond] at ha
              cases ha
          subst he
          simp [ha]
        · simp [ha]
    · refine ⟨fun _ => ⟨.unsupportedVersion cfg.format_version
        supported_format_version, ?_⟩, fun _ _ => ?_, fun heq => absurd heq hv⟩
      · simp [from_yaml, hcf, hv]
      · simp [from_yaml, hcf, hv]

/-- C8 witness: a non-composite configuration with format version 2 is
rejected with the version-mismatch error. -/
theorem from_yaml_version_check_witness :
    from_yaml sample_config_v2
      = .error (.unsupportedVersion 2 supported_format_version) :=
  (from_yaml_version_check sample_config_v2).2.1 (by decide) (by decide)

/-- C9: every deprecated entry point (`from_folder`, `get_observables`,
`get_sigmas` and the default-file-name helpers) records a deprecation
warning in the collected warning list while still producing its value (the
computed file name, resp. the delegated result); no error branch exists, so
processing is never aborted. -/
theorem deprecated_api_warns_nonfatal (model_name folder : String)
    (opt_name : Option String) (obs : List String) :
    ((get_default_condition_file_name model_name folder).value
        = os_path_join folder
            ("experimentalCondition_" ++ model_name ++ ".tsv")
      ∧ ∃ msg, (get_default_condition_file_name model_name folder).warnings
          = [.deprecation msg])
  ∧ ((get_default_measurement_file_name model_name folder).value
        = os_path_join folder ("measurementData_" ++ model_name ++ ".tsv")
      ∧ ∃ msg, (get_default_measurement_file_name model_name folder).warnings
          = [.deprecation msg])
  ∧ ((get_default_parameter_file_name model_name folder).value
        = os_path_join folder ("parameters_" ++ model_name ++ ".tsv")
      ∧ ∃ msg, (get_default_parameter_file_name model_name folder).warnings
          = [.deprecation msg])
  ∧ ((get_default_sbml_file_name model_name folder).value
        = os_path_join folder ("model_" ++ model_name ++ ".xml")
      ∧ ∃ msg, (get_default_sbml_file_name model_name folder).warnings
          = [.deprecation msg])
  ∧ ((from_folder folder opt_name).value
        = { condition_file := (get_default_condition_file_name
              (opt_name.getD (path_basename folder)) folder).value
            measurement_file := (get_default_measurement_file_name
              (opt_name.getD (path_basename folder)) folder).value
            parameter_file := (get_default_parameter_file_name
              (opt_name.getD (path_basename folder)) folder).value
            sbml_file := (get_default_sbml_file_name
              (opt_name.getD (path_basename folder)) folder).value }
      ∧ (from_folder folder opt_name).warnings ≠ []
      ∧ ∀ w ∈ (from_folder folder opt_name).warnings,
          ∃ msg, w = .deprecation msg)
  ∧ ((get_observables obs).value = obs
      ∧ ∃ msg, (get_observables obs).warnings = [.deprecation msg])
  ∧ ((get_sigmas obs).value = obs
      ∧ ∃ msg, (get_sigmas obs).warnings = [.deprecation msg]) := by
  refine ⟨⟨rfl, _, rfl⟩, ⟨rfl, _, rfl⟩, ⟨rfl, _, rfl⟩, ⟨rfl, _, rfl⟩,
    ⟨rfl, ?_, ?_⟩, ⟨rfl, _, rfl⟩, ⟨rfl, _, rfl⟩⟩
  · intro h
    exact List.cons_ne_nil _ _ h
  · intro w hw
    have hwl : (from_folder folder opt_name).warnings
        = [.deprecation
            "This function will be removed in future releases. Consider using a PEtab YAML file for grouping files",
          .deprecation "This function will be removed in future releases. ",
          .deprecation "This function will be removed in future releases. ",
          .deprecation "This function will be removed in future releases. ",
          .deprecation "This function will be removed in future releases. "] := rfl
    rw [hwl] at hw
    simp only [List.mem_cons, List.not_mem_nil, or_false] at hw
    rcases hw with h | h | h | h | h <;> exact ⟨_, h⟩

/-- C9 witness: `get_sigmas` on a concrete delegated result keeps the value
and emits exactly one deprecation warning. -/
theorem deprecated_api_warns_nonfatal_witness :
    (get_sigmas ["obs1"]).value = ["obs1"]
  ∧ ∃ msg, (get_sigmas (["obs1"] : List String)).warnings
      = [.deprecation msg] :=
  (deprecated_api_warns_nonfatal "m" "" none ["obs1"]).2.2.2.2.2.2

/-- C10: `from_yaml` rejects a composite configuration with the composite
`ValueError` before reading any referenced file (an error result carries no
`FromFilesArgs`), and for non-composite configurations the result depends
only on the format version, the top-level parameter file entry and the
first entry of the `problems` list. -/
theorem from_yaml_composite_and_first_problem :
    (∀ cfg, is_composite_problem cfg →
      from_yaml cfg = .error .compositeProblem)
  ∧ (∀ c1 c2 : YamlConfig, ¬is_composite_problem c1 →
      ¬is_composite_problem c2 →
      c1.format_version = c2.format_version →
      c1.parameter_file = c2.parameter_file →
      c1.problems.head? = c2.problems.head? →
      from_yaml c1 = from_yaml c2) := by
  constructor
  · intro cfg h
    simp [from_yaml, h]
  · intro c1 c2 h1 h2 hv hp hh
    rw [Bool.not_eq_true] at h1 h2
    simp only [from_yaml, h1, h2, Bool.false_eq_true, if_false, hv, hp, hh]

/-- C10 witness: the sample composite configuration is rejected with the
composite error. -/
theorem from_yaml_composite_witness :
    from_yaml sample_config_composite = .error .compositeProblem :=
  from_yaml_composite_and_first_problem.1 sample_config_composite (by decide)

end Petab
